import Mathlib

/-!
Verification of the Soroban multi-signature wallet contract
(contracts/hello-world/src/lib.rs).

The contract's persistent key-value store is embedded as an explicit
`State` record: one field per `DataKey` variant.  Keys the code only
ever reads through `unwrap_or_else(Vec::new)` (`Signers`,
`Approvals(id)`) are stored as plain lists whose initial value is the
default `[]`; keys read through `unwrap` or tested with `has`
(`Admin`, `Threshold`, `NextId`) are `Option`s; the family of
`Signer(address)` boolean flags is the list of addresses whose flag
entry is present.  Addresses are `Nat`, `Bytes` is `List Nat`, machine
integers are `Nat`/`Int` (the contract never exercises wrap-around:
`u32` lengths and `u64` ids stay far below their bounds on the traces
considered, and the build traps on overflow).  A Rust panic is an
`Except.error`; since a failed invocation aborts with no partial
effects, the transition function `step` leaves the state unchanged on
error.  `require_auth` is host-side caller verification, outside the
store; it is modelled as always succeeding for the given caller.
-/

namespace MultiSig

abbrev Address := Nat

inductive TransactionStatus where
  | Pending
  | Executed
  | Rejected
  | Cancelled
deriving DecidableEq, Repr

structure Transaction where
  id : Nat
  to_addr : Address
  amount : Int
  data : List Nat
  status : TransactionStatus
  proposed_by : Address
  created_at : Nat
deriving DecidableEq, Repr

/-- Named abort conditions, one per `assert!`/`unwrap` panic site of the
contract. -/
inductive Err where
  | AlreadyInitialized
  | InvalidThreshold
  | EmptySignerSet
  | MissingKey
  | NotAdmin
  | NotSigner
  | SignerExists
  | ThresholdViolation
  | TransactionNotFound
  | TransactionNotPending
deriving DecidableEq, Repr

/-- The persistent store: one field per `DataKey` variant. -/
structure State where
  admin : Option Address
  threshold : Option Nat
  signersList : List Address
  nextId : Option Nat
  signerFlag : List Address
  transactions : List (Nat × Transaction)
  approvals : List (Nat × List Address)
deriving DecidableEq, Repr

/-- Lookup in an association list keyed by `Nat`. -/
def lookupA {α : Type} (k : Nat) : List (Nat × α) → Option α
  | [] => none
  | (q, v) :: rest => if q = k then some v else lookupA k rest

/-- Store a value under a key in an association list, replacing any
existing entry. -/
def setAssoc {α : Type} (k : Nat) (v : α) : List (Nat × α) → List (Nat × α)
  | [] => [(k, v)]
  | (q, w) :: rest => if q = k then (k, v) :: rest else (q, w) :: setAssoc k v rest

/-- storage.set on a `Signer(x)` flag key: make the key present. -/
def flagSet (flags : List Address) (x : Address) : List Address :=
  if x ∈ flags then flags else flags ++ [x]

/-- storage.remove on a `Signer(x)` flag key: make the key absent. -/
def flagRemove (flags : List Address) (x : Address) : List Address :=
  flags.filter (fun y => y ≠ x)

/-- get_signers: read the `Signers` key, defaulting to the empty list. -/
def get_signers (st : State) : List Address := st.signersList

/-- update_signers_list, verbatim from lib.rs lines 187-209.  In the
remove branch the Rust code stores the filtered `new_signers` list and
then falls through to the final `set` of the unmodified local
`signers`, so the stored list ends up unchanged. -/
def update_signers_list (st : State) (signer : Address) (is_add : Bool) : State :=
  let signers := get_signers st
  if is_add then
    let signers2 := if signer ∈ signers then signers else signers ++ [signer]
    { st with signersList := signers2 }
  else
    let new_signers := signers.filter (fun s => s ≠ signer)
    let st2 := { st with signersList := new_signers }
    { st2 with signersList := signers }

def only_admin (st : State) (caller : Address) : Except Err Unit :=
  match st.admin with
  | none => Except.error Err.MissingKey
  | some a => if caller = a then Except.ok () else Except.error Err.NotAdmin

def only_signer (st : State) (caller : Address) : Except Err Unit :=
  if caller ∈ st.signerFlag then Except.ok () else Except.error Err.NotSigner

/-- The signer-registration loop of `initialize` (lib.rs lines 55-58):
for each signer, set its membership flag and append it to the ordered
list. -/
def register_signers (signers : List Address) (st : State) : State :=
  signers.foldl
    (fun acc signer =>
      update_signers_list { acc with signerFlag := flagSet acc.signerFlag signer }
        signer true)
    st

/-- Model of `initialize` (lib.rs lines 46-61); the asserts run in
source order: already-initialized, then threshold, then emptiness. -/
def init_contract (st : State) (admin : Address) (signers : List Address)
    (threshold : Nat) : Except Err State :=
  if st.admin.isSome then Except.error Err.AlreadyInitialized
  else if threshold > 0 ∧ threshold ≤ signers.length then
    if signers.isEmpty then Except.error Err.EmptySignerSet
    else
      let st1 := { st with admin := some admin, threshold := some threshold }
      let st2 := register_signers signers st1
      Except.ok { st2 with nextId := some 1 }
  else Except.error Err.InvalidThreshold

def add_signer (st : State) (caller signer : Address) : Except Err State :=
  match only_admin st caller with
  | Except.error e => Except.error e
  | Except.ok _ =>
    if signer ∈ st.signerFlag then Except.error Err.SignerExists
    else
      Except.ok
        (update_signers_list { st with signerFlag := flagSet st.signerFlag signer }
          signer true)

def remove_signer (st : State) (caller signer : Address) : Except Err State :=
  match only_admin st caller with
  | Except.error e => Except.error e
  | Except.ok _ =>
    match st.threshold with
    | none => Except.error Err.MissingKey
    | some threshold =>
      if (get_signers st).length > threshold then
        Except.ok
          (update_signers_list { st with signerFlag := flagRemove st.signerFlag signer }
            signer false)
      else Except.error Err.ThresholdViolation

def update_threshold (st : State) (caller : Address) (new_threshold : Nat) :
    Except Err State :=
  match only_admin st caller with
  | Except.error e => Except.error e
  | Except.ok _ =>
    if new_threshold > 0 ∧ new_threshold ≤ (get_signers st).length then
      Except.ok { st with threshold := some new_threshold }
    else Except.error Err.InvalidThreshold

def get_approvals (st : State) (tx_id : Nat) : List Address :=
  (lookupA tx_id st.approvals).getD []

def get_transaction (st : State) (tx_id : Nat) : Option Transaction :=
  lookupA tx_id st.transactions

/-- self_approve (lib.rs lines 222-241): append the caller to the
transaction's approval list unless already present. -/
def self_approve (st : State) (caller : Address) (tx_id : Nat) : State :=
  let approvals := get_approvals st tx_id
  if caller ∈ approvals then st
  else { st with approvals := setAssoc tx_id (approvals ++ [caller]) st.approvals }

/-- self_execute (lib.rs lines 172-178): mark the transaction Executed
and persist it under its own id field. -/
def self_execute (st : State) (tx : Transaction) : State :=
  { st with transactions :=
      setAssoc tx.id { tx with status := TransactionStatus.Executed } st.transactions }

/-- propose_transaction (lib.rs lines 118-145); `now` stands for the
host ledger timestamp. -/
def propose_transaction (st : State) (caller to_addr : Address) (amount : Int)
    (data : List Nat) (now : Nat) : Except Err (Nat × State) :=
  match only_signer st caller with
  | Except.error e => Except.error e
  | Except.ok _ =>
    match st.nextId with
    | none => Except.error Err.MissingKey
    | some tx_id =>
      let st1 := { st with nextId := some (tx_id + 1) }
      let tx : Transaction :=
        { id := tx_id, to_addr := to_addr, amount := amount, data := data,
          status := TransactionStatus.Pending, proposed_by := caller,
          created_at := now }
      let st2 := { st1 with transactions := setAssoc tx_id tx st1.transactions }
      Except.ok (tx_id, self_approve st2 caller tx_id)

/-- approve_transaction (lib.rs lines 147-170). -/
def approve_transaction (st : State) (caller : Address) (tx_id : Nat) :
    Except Err State :=
  match only_signer st caller with
  | Except.error e => Except.error e
  | Except.ok _ =>
    match get_transaction st tx_id with
    | none => Except.error Err.TransactionNotFound
    | some tx =>
      if tx.status = TransactionStatus.Pending then
        let st1 := self_approve st caller tx_id
        match st1.threshold with
        | none => Except.error Err.MissingKey
        | some threshold =>
          if threshold ≤ (get_approvals st1 tx_id).length then
            Except.ok (self_execute st1 tx)
          else Except.ok st1
      else Except.error Err.TransactionNotPending

/-- One public invocation of the contract, with its arguments. -/
inductive Op where
  | init (admin : Address) (signers : List Address) (threshold : Nat)
  | addSigner (caller signer : Address)
  | removeSigner (caller signer : Address)
  | updateThreshold (caller : Address) (new_threshold : Nat)
  | propose (caller to_addr : Address) (amount : Int) (data : List Nat) (now : Nat)
  | approve (caller : Address) (tx_id : Nat)
deriving DecidableEq, Repr

/-- Host semantics of one invocation: a panic aborts the call and rolls
back every pending write, so an error leaves the store unchanged. -/
def step (st : State) : Op → State
  | Op.init a s t =>
    match init_contract st a s t with
    | Except.ok st2 => st2
    | Except.error _ => st
  | Op.addSigner c s =>
    match add_signer st c s with
    | Except.ok st2 => st2
    | Except.error _ => st
  | Op.removeSigner c s =>
    match remove_signer st c s with
    | Except.ok st2 => st2
    | Except.error _ => st
  | Op.updateThreshold c t =>
    match update_threshold st c t with
    | Except.ok st2 => st2
    | Except.error _ => st
  | Op.propose c t2 a d n =>
    match propose_transaction st c t2 a d n with
    | Except.ok p => p.2
    | Except.error _ => st
  | Op.approve c i =>
    match approve_transaction st c i with
    | Except.ok st2 => st2
    | Except.error _ => st

def exec (st : State) (ops : List Op) : State := ops.foldl step st

/-- The store of a freshly deployed, never-initialized instance. -/
def emptyState : State :=
  { admin := none, threshold := none, signersList := [], nextId := none,
    signerFlag := [], transactions := [], approvals := [] }

/-- True exactly when the invocation completed without aborting. -/
def callOk {α : Type} : Except Err α → Bool
  | Except.ok _ => true
  | Except.error _ => false

/-! Association-list lemmas. -/

theorem lookupA_setAssoc_self {α : Type} (k : Nat) (v : α) (l : List (Nat × α)) :
    lookupA k (setAssoc k v l) = some v := by
  induction l with
  | nil => simp [setAssoc, lookupA]
  | cons p rest ih =>
    obtain ⟨q, w⟩ := p
    by_cases h : q = k
    · simp [setAssoc, h, lookupA]
    · simp [setAssoc, h, lookupA, ih]

theorem lookupA_setAssoc_ne {α : Type} (j k : Nat) (v : α) (l : List (Nat × α))
    (h : j ≠ k) :
    lookupA j (setAssoc k v l) = lookupA j l := by
  induction l with
  | nil => simp [setAssoc, lookupA, Ne.symm h]
  | cons p rest ih =>
    obtain ⟨q, w⟩ := p
    by_cases hq : q = k
    · subst hq
      simp [setAssoc, lookupA, Ne.symm h]
    · simp [setAssoc, hq, lookupA, ih]

theorem setAssoc_setAssoc_self {α : Type} (k : Nat) (v : α) (l : List (Nat × α)) :
    setAssoc k v (setAssoc k v l) = setAssoc k v l := by
  induction l with
  | nil => simp [setAssoc]
  | cons p rest ih =>
    obtain ⟨q, w⟩ := p
    by_cases h : q = k
    · simp [setAssoc, h]
    · simp [setAssoc, h, ih]

/-! Frame lemmas: which store keys each internal helper leaves
untouched. -/

@[simp] theorem usl_admin (st : State) (s : Address) (b : Bool) :
    (update_signers_list st s b).admin = st.admin := by
  cases b <;> rfl

@[simp] theorem usl_threshold (st : State) (s : Address) (b : Bool) :
    (update_signers_list st s b).threshold = st.threshold := by
  cases b <;> rfl

@[simp] theorem usl_nextId (st : State) (s : Address) (b : Bool) :
    (update_signers_list st s b).nextId = st.nextId := by
  cases b <;> rfl

@[simp] theorem usl_signerFlag (st : State) (s : Address) (b : Bool) :
    (update_signers_list st s b).signerFlag = st.signerFlag := by
  cases b <;> rfl

@[simp] theorem usl_transactions (st : State) (s : Address) (b : Bool) :
    (update_signers_list st s b).transactions = st.transactions := by
  cases b <;> rfl

@[simp] theorem usl_approvals (st : State) (s : Address) (b : Bool) :
    (update_signers_list st s b).approvals = st.approvals := by
  cases b <;> rfl

@[simp] theorem self_approve_admin (st : State) (c : Address) (i : Nat) :
    (self_approve st c i).admin = st.admin := by
  simp only [self_approve]
  split <;> rfl

@[simp] theorem self_approve_threshold (st : State) (c : Address) (i : Nat) :
    (self_approve st c i).threshold = st.threshold := by
  simp only [self_approve]
  split <;> rfl

@[simp] theorem self_approve_nextId (st : State) (c : Address) (i : Nat) :
    (self_approve st c i).nextId = st.nextId := by
  simp only [self_approve]
  split <;> rfl

@[simp] theorem self_approve_signerFlag (st : State) (c : Address) (i : Nat) :
    (self_approve st c i).signerFlag = st.signerFlag := by
  simp only [self_approve]
  split <;> rfl

@[simp] theorem self_approve_transactions (st : State) (c : Address) (i : Nat) :
    (self_approve st c i).transactions = st.transactions := by
  simp only [self_approve]
  split <;> rfl

@[simp] theorem self_approve_signersList (st : State) (c : Address) (i : Nat) :
    (self_approve st c i).signersList = st.signersList := by
  simp only [self_approve]
  split <;> rfl

@[simp] theorem self_execute_admin (st : State) (tx : Transaction) :
    (self_execute st tx).admin = st.admin := rfl

@[simp] theorem self_execute_threshold (st : State) (tx : Transaction) :
    (self_execute st tx).threshold = st.threshold := rfl

@[simp] theorem self_execute_nextId (st : State) (tx : Transaction) :
    (self_execute st tx).nextId = st.nextId := rfl

@[simp] theorem self_execute_signerFlag (st : State) (tx : Transaction) :
    (self_execute st tx).signerFlag = st.signerFlag := rfl

@[simp] theorem self_execute_approvals (st : State) (tx : Transaction) :
    (self_execute st tx).approvals = st.approvals := rfl

@[simp] theorem get_transaction_self_approve (st : State) (c : Address) (i j : Nat) :
    get_transaction (self_approve st c i) j = get_transaction st j := by
  simp [get_transaction]

@[simp] theorem get_approvals_self_execute (st : State) (tx : Transaction) (i : Nat) :
    get_approvals (self_execute st tx) i = get_approvals st i := by
  simp [get_approvals]

theorem get_approvals_self_approve_self (st : State) (c : Address) (i : Nat) :
    get_approvals (self_approve st c i) i =
      if c ∈ get_approvals st i then get_approvals st i
      else get_approvals st i ++ [c] := by
  simp only [self_approve]
  split
  · simp [*]
  · simp [get_approvals, lookupA_setAssoc_self, *]

theorem mem_get_approvals_self_approve (st : State) (c : Address) (i : Nat) :
    c ∈ get_approvals (self_approve st c i) i := by
  rw [get_approvals_self_approve_self]
  split
  · assumption
  · simp

theorem self_approve_mem_eq (st : State) (c : Address) (i : Nat)
    (h : c ∈ get_approvals st i) :
    self_approve st c i = st := by
  simp [self_approve, h]

theorem nodup_get_approvals_self_approve (st : State) (c : Address) (i : Nat)
    (h : (get_approvals st i).Nodup) :
    (get_approvals (self_approve st c i) i).Nodup := by
  rw [get_approvals_self_approve_self]
  split
  · exact h
  · simp [List.nodup_append, h, *]

/-! Inversion lemmas: what a successful call tells us about its inputs
and its resulting state. -/

theorem only_signer_ok_mem (st : State) (c : Address) (u : Unit)
    (h : only_signer st c = Except.ok u) : c ∈ st.signerFlag := by
  by_cases hc : c ∈ st.signerFlag
  · exact hc
  · simp [only_signer, hc] at h

theorem only_admin_ok (st : State) (c : Address) (u : Unit)
    (h : only_admin st c = Except.ok u) : st.admin = some c := by
  cases ha : st.admin with
  | none => simp [only_admin, ha] at h
  | some a =>
    by_cases hc : c = a
    · subst hc; exact ha ▸ rfl
    · simp [only_admin, ha, hc] at h

theorem register_signers_admin (sgs : List Address) (st : State) :
    (register_signers sgs st).admin = st.admin := by
  induction sgs generalizing st with
  | nil => rfl
  | cons s rest ih =>
    rw [show register_signers (s :: rest) st = register_signers rest
        (update_signers_list { st with signerFlag := flagSet st.signerFlag s } s true)
      from rfl, ih]
    simp

theorem register_signers_threshold (sgs : List Address) (st : State) :
    (register_signers sgs st).threshold = st.threshold := by
  induction sgs generalizing st with
  | nil => rfl
  | cons s rest ih =>
    rw [show register_signers (s :: rest) st = register_signers rest
        (update_signers_list { st with signerFlag := flagSet st.signerFlag s } s true)
      from rfl, ih]
    simp

theorem init_ok_inv (st st2 : State) (a : Address) (sgs : List Address) (t : Nat)
    (h : init_contract st a sgs t = Except.ok st2) :
    st2.admin = some a ∧ st2.nextId = some 1 ∧ st2.threshold = some t := by
  simp only [init_contract] at h
  split at h
  · simp at h
  · split at h
    · split at h
      · simp at h
      · simp only [Except.ok.injEq] at h
        subst h
        refine ⟨?_, rfl, ?_⟩
        · simp [register_signers_admin]
        · simp [register_signers_threshold]
    · simp at h

theorem add_signer_ok_inv (st st2 : State) (c s : Address)
    (h : add_signer st c s = Except.ok st2) :
    st2.admin = st.admin ∧ st2.threshold = st.threshold ∧ st2.nextId = st.nextId ∧
    st2.transactions = st.transactions ∧ st2.approvals = st.approvals := by
  simp only [add_signer] at h
  split at h
  · simp at h
  · split at h
    · simp at h
    · simp only [Except.ok.injEq] at h
      subst h
      simp

theorem remove_signer_ok_inv (st st2 : State) (c s : Address)
    (h : remove_signer st c s = Except.ok st2) :
    st2.admin = st.admin ∧ st2.threshold = st.threshold ∧ st2.nextId = st.nextId ∧
    st2.transactions = st.transactions ∧ st2.approvals = st.approvals := by
  simp only [remove_signer] at h
  split at h
  · simp at h
  · split at h
    · simp at h
    · split at h
      · simp only [Except.ok.injEq] at h
        subst h
        simp
      · simp at h

theorem update_threshold_ok_inv (st st2 : State) (c : Address) (t : Nat)
    (h : update_threshold st c t = Except.ok st2) :
    st2.admin = st.admin ∧ st2.nextId = st.nextId ∧
    st2.signerFlag = st.signerFlag ∧ st2.transactions = st.transactions ∧
    st2.approvals = st.approvals := by
  simp only [update_threshold] at h
  split at h
  · simp at h
  · split at h
    · simp only [Except.ok.injEq] at h
      subst h
      simp
    · simp at h

theorem propose_ok_inv (st st2 : State) (c ta : Address) (am : Int) (d : List Nat)
    (n i : Nat)
    (h : propose_transaction st c ta am d n = Except.ok (i, st2)) :
    st.nextId = some i ∧ st2.nextId = some (i + 1) ∧ st2.admin = st.admin ∧
    st2.threshold = st.threshold ∧ st2.signerFlag = st.signerFlag ∧
    get_transaction st2 i = some
      { id := i, to_addr := ta, amount := am, data := d,
        status := TransactionStatus.Pending, proposed_by := c,
        created_at := n } := by
  simp only [propose_transaction] at h
  split at h
  · simp at h
  · split at h
    · simp at h
    · rename_i heqn
      simp only [Except.ok.injEq, Prod.mk.injEq] at h
      obtain ⟨hi, hst⟩ := h
      subst hi
      subst hst
      refine ⟨heqn, by simp, by simp, by simp, by simp, ?_⟩
      simp [get_transaction, lookupA_setAssoc_self]

theorem approve_ok_inv (st st2 : State) (c : Address) (i : Nat)
    (h : approve_transaction st c i = Except.ok st2) :
    c ∈ st.signerFlag ∧
    ∃ tx t, get_transaction st i = some tx ∧
      tx.status = TransactionStatus.Pending ∧ st.threshold = some t ∧
      st2 = (if t ≤ (get_approvals (self_approve st c i) i).length
             then self_execute (self_approve st c i) tx
             else self_approve st c i) := by
  simp only [approve_transaction] at h
  split at h
  · simp at h
  · rename_i u hu
    refine ⟨only_signer_ok_mem st c u hu, ?_⟩
    split at h
    · simp at h
    · rename_i tx heqtx
      split at h
      · rename_i hPend
        split at h
        · rename_i heqth
          rw [self_approve_threshold] at heqth
          simp at h
        · rename_i t heqth
          rw [self_approve_threshold] at heqth
          refine ⟨tx, t, heqtx, hPend, heqth, ?_⟩
          split at h
          · rename_i hle
            rw [if_pos hle]
            simp only [Except.ok.injEq] at h
            exact h.symm
          · rename_i hle
            rw [if_neg hle]
            simp only [Except.ok.injEq] at h
            exact h.symm
      · simp at h

theorem approve_ok_frame (st st2 : State) (c : Address) (i : Nat)
    (h : approve_transaction st c i = Except.ok st2) :
    st2.admin = st.admin ∧ st2.threshold = st.threshold ∧
    st2.nextId = st.nextId ∧ st2.signerFlag = st.signerFlag := by
  obtain ⟨-, tx, t, -, -, -, hst⟩ := approve_ok_inv st st2 c i h
  subst hst
  split <;> simp

/-! Once the contract is initialized, no invocation can change the
admin and no invocation can decrease the NextId counter. -/

theorem step_admin_nextId (st : State) (op : Op) (h : st.admin.isSome) :
    (step st op).admin = st.admin ∧
    st.nextId.getD 0 ≤ (step st op).nextId.getD 0 := by
  cases op with
  | init a s t =>
    have hfail : init_contract st a s t = Except.error Err.AlreadyInitialized := by
      simp [init_contract, h]
    simp [step, hfail]
  | addSigner c s =>
    simp only [step]
    cases hA : add_signer st c s with
    | error e => simp
    | ok st2 =>
      obtain ⟨h1, -, h2, -⟩ := add_signer_ok_inv st st2 c s hA
      simp [h1, h2]
  | removeSigner c s =>
    simp only [step]
    cases hA : remove_signer st c s with
    | error e => simp
    | ok st2 =>
      obtain ⟨h1, -, h2, -⟩ := remove_signer_ok_inv st st2 c s hA
      simp [h1, h2]
  | updateThreshold c t =>
    simp only [step]
    cases hA : update_threshold st c t with
    | error e => simp
    | ok st2 =>
      obtain ⟨h1, h2, -⟩ := update_threshold_ok_inv st st2 c t hA
      simp [h1, h2]
  | propose c ta am d n =>
    simp only [step]
    cases hA : propose_transaction st c ta am d n with
    | error e => simp
    | ok p =>
      obtain ⟨i, st2⟩ := p
      obtain ⟨h1, h2, h3, -⟩ := propose_ok_inv st st2 c ta am d n i hA
      simp [h1, h2, h3]
  | approve c i =>
    simp only [step]
    cases hA : approve_transaction st c i with
    | error e => simp
    | ok st2 =>
      obtain ⟨h1, -, h2, -⟩ := approve_ok_frame st st2 c i hA
      simp [h1, h2]

theorem exec_admin_nextId (ops : List Op) (st : State) (h : st.admin.isSome) :
    (exec st ops).admin = st.admin ∧
    st.nextId.getD 0 ≤ (exec st ops).nextId.getD 0 := by
  induction ops generalizing st with
  | nil => exact ⟨rfl, Nat.le_refl _⟩
  | cons op rest ih =>
    have h1 := step_admin_nextId st op h
    have h2 : (step st op).admin.isSome = true := by rw [h1.1]; exact h
    have h3 := ih (step st op) h2
    have hx : exec st (op :: rest) = exec (step st op) rest := rfl
    rw [hx]
    exact ⟨h3.1.trans h1.1, Nat.le_trans h1.2 h3.2⟩

/-- Forward evaluation of `approve_transaction` when the caller is a
signer who has already approved the pending transaction `i`. -/
theorem approve_eval (s1 : State) (caller : Address) (i : Nat) (tx2 : Transaction)
    (t : Nat) (hos : caller ∈ s1.signerFlag)
    (htx2 : get_transaction s1 i = some tx2)
    (hst2 : tx2.status = TransactionStatus.Pending)
    (hmem : caller ∈ get_approvals s1 i)
    (hthr : s1.threshold = some t) :
    approve_transaction s1 caller i =
      if t ≤ (get_approvals s1 i).length then Except.ok (self_execute s1 tx2)
      else Except.ok s1 := by
  have hsa : self_approve s1 caller i = s1 := self_approve_mem_eq s1 caller i hmem
  simp only [approve_transaction, only_signer, hos, if_true, htx2, hst2, hsa, hthr]

/-! Claim theorems. -/

/-- C1: the spec invariant says an address is in the `Signers` list iff
its `Signer(x)` flag is set, for every operation sequence.  The code
violates it: `update_signers_list`'s remove branch stores the filtered
list and then overwrites it with the untouched original (lib.rs line
208), so after a successful `remove_signer(admin, 3)` from signers
`[1,2,3]` with threshold 2, address 3 is still in the stored list while
its membership flag is gone. -/
theorem C1_list_flag_divergence :
    callOk (remove_signer (exec emptyState [Op.init 0 [1, 2, 3] 2]) 0 3) = true ∧
    3 ∈ get_signers (exec emptyState [Op.init 0 [1, 2, 3] 2, Op.removeSigner 0 3]) ∧
    3 ∉ (exec emptyState [Op.init 0 [1, 2, 3] 2, Op.removeSigner 0 3]).signerFlag := by
  decide

/-- C2: the spec invariant says once initialized `0 < threshold <=
number of current signers` after every operation.  The code violates
it: because the stored `Signers` list never shrinks, the guard in
`remove_signer` keeps passing, and after initialize([1,2,3], 2),
remove_signer(0,3), remove_signer(0,2) - both removals succeeding -
only signer 1 keeps a membership flag while the threshold is still 2. -/
theorem C2_threshold_exceeds_signers :
    callOk (remove_signer (exec emptyState [Op.init 0 [1, 2, 3] 2, Op.removeSigner 0 3])
      0 2) = true ∧
    (exec emptyState [Op.init 0 [1, 2, 3] 2, Op.removeSigner 0 3,
      Op.removeSigner 0 2]).threshold = some 2 ∧
    (exec emptyState [Op.init 0 [1, 2, 3] 2, Op.removeSigner 0 3,
      Op.removeSigner 0 2]).signerFlag = [1] := by
  decide

/-- C4: the claim (and spec scenario 4) says remove_signer(admin, C)
with signers [A,B,C] and threshold 2 removes C from the ordered list
and a subsequent remove_signer(admin, B) fails with ThresholdViolation.
In the code the first removal leaves 3 in the stored list (the filtered
list is overwritten, lib.rs line 208), so the second removal also
passes the `count > threshold` guard and succeeds. -/
theorem C4_second_removal_not_blocked :
    callOk (remove_signer (exec emptyState [Op.init 0 [1, 2, 3] 2]) 0 3) = true ∧
    3 ∈ get_signers (exec emptyState [Op.init 0 [1, 2, 3] 2, Op.removeSigner 0 3]) ∧
    remove_signer (exec emptyState [Op.init 0 [1, 2, 3] 2, Op.removeSigner 0 3]) 0 2 ≠
      Except.error Err.ThresholdViolation ∧
    callOk (remove_signer (exec emptyState [Op.init 0 [1, 2, 3] 2, Op.removeSigner 0 3])
      0 2) = true := by
  refine ⟨by decide, by decide, ?_, by decide⟩
  intro h
  exact absurd (congrArg callOk h) (by decide)

/-- C8: if the Admin key already exists, a second `initialize` fails
with AlreadyInitialized and the invocation leaves the store unchanged. -/
theorem C8_reinit_rejected (st : State) (a adm : Address) (sgs : List Address)
    (t : Nat) (h : st.admin = some a) :
    init_contract st adm sgs t = Except.error Err.AlreadyInitialized ∧
    step st (Op.init adm sgs t) = st := by
  have h1 : st.admin.isSome = true := by rw [h]; rfl
  have h2 : init_contract st adm sgs t = Except.error Err.AlreadyInitialized := by
    simp [init_contract, h1]
  exact ⟨h2, by simp [step, h2]⟩

/-- Witness for C8 on a concretely initialized instance. -/
theorem C8_reinit_rejected_witness :
    init_contract (exec emptyState [Op.init 0 [1] 1]) 5 [7] 1 =
      Except.error Err.AlreadyInitialized ∧
    step (exec emptyState [Op.init 0 [1] 1]) (Op.init 5 [7] 1) =
      exec emptyState [Op.init 0 [1] 1] :=
  C8_reinit_rejected (exec emptyState [Op.init 0 [1] 1]) 0 5 [7] 1 (by decide)

/-- C9 counterexample: on a fresh instance, `initialize` with an empty
signer list and threshold 1 aborts with InvalidThreshold, not
EmptySignerSet - the threshold assert runs first and `0 < t <= 0` is
unsatisfiable, so the empty-set check is unreachable. -/
theorem C9_counterexample :
    init_contract emptyState 0 ([] : List Address) 1 =
      Except.error Err.InvalidThreshold ∧
    Err.InvalidThreshold ≠ Err.EmptySignerSet :=
  ⟨rfl, by decide⟩

/-- C9 amended: on an uninitialized instance, `initialize` with an
empty signers sequence fails with InvalidThreshold regardless of the
threshold argument (the threshold check precedes the emptiness check
and can never pass against zero signers). -/
theorem C9_empty_signers_invalid_threshold (st : State) (adm : Address) (t : Nat)
    (h : st.admin = none) :
    init_contract st adm [] t = Except.error Err.InvalidThreshold := by
  have h1 : st.admin.isSome = false := by rw [h]; rfl
  have h2 : ¬ (t > 0 ∧ t ≤ ([] : List Address).length) := by
    rintro ⟨h3, h4⟩
    simp at h4
    omega
  simp [init_contract, h1, h2]
  omega

/-- Witness for the amended C9 at a concrete input. -/
theorem C9_empty_signers_witness :
    init_contract emptyState 5 [] 3 = Except.error Err.InvalidThreshold :=
  C9_empty_signers_invalid_threshold emptyState 5 3 rfl

/-- C10: approval counting never re-checks that recorded approvers are
still signers.  Trace: initialize(0, [1,2,3], 2); signer 1 proposes
transaction 1 (auto-approving it); the admin removes signer 1; signer 2
approves.  The stored approval list [1, 2] reaches the threshold 2 and
the transaction becomes Executed, although only one of its approvers
(address 2) still holds a Signer flag - fewer than the threshold. -/
theorem C10_stale_approver_counts :
    ((get_transaction (exec emptyState [Op.init 0 [1, 2, 3] 2, Op.propose 1 9 100 [] 0,
        Op.removeSigner 0 1, Op.approve 2 1]) 1).map Transaction.status =
      some TransactionStatus.Executed) ∧
    get_approvals (exec emptyState [Op.init 0 [1, 2, 3] 2, Op.propose 1 9 100 [] 0,
        Op.removeSigner 0 1, Op.approve 2 1]) 1 = [1, 2] ∧
    1 ∉ (exec emptyState [Op.init 0 [1, 2, 3] 2, Op.propose 1 9 100 [] 0,
        Op.removeSigner 0 1, Op.approve 2 1]).signerFlag ∧
    ((get_approvals (exec emptyState [Op.init 0 [1, 2, 3] 2, Op.propose 1 9 100 [] 0,
        Op.removeSigner 0 1, Op.approve 2 1]) 1).filter
      (fun x => decide (x ∈ (exec emptyState [Op.init 0 [1, 2, 3] 2,
        Op.propose 1 9 100 [] 0, Op.removeSigner 0 1,
        Op.approve 2 1]).signerFlag))).length = 1 ∧
    (exec emptyState [Op.init 0 [1, 2, 3] 2, Op.propose 1 9 100 [] 0,
        Op.removeSigner 0 1, Op.approve 2 1]).threshold = some 2 := by
  decide

/-- C7: when the caller is a signer, `approve_transaction` fails with
TransactionNotFound if no transaction with the given id exists, fails
with TransactionNotPending if the transaction exists with a non-Pending
status, and in the latter case the aborted invocation leaves the store
unchanged. -/
theorem C7_approve_failure_modes (st : State) (caller : Address) (txA txB : Nat)
    (tx : Transaction) (hs : caller ∈ st.signerFlag)
    (hA : get_transaction st txA = none)
    (hB : get_transaction st txB = some tx)
    (hP : tx.status ≠ TransactionStatus.Pending) :
    approve_transaction st caller txA = Except.error Err.TransactionNotFound ∧
    approve_transaction st caller txB = Except.error Err.TransactionNotPending ∧
    step st (Op.approve caller txB) = st := by
  have h1 : approve_transaction st caller txA = Except.error Err.TransactionNotFound := by
    simp [approve_transaction, only_signer, hs, hA]
  have h2 : approve_transaction st caller txB = Except.error Err.TransactionNotPending := by
    simp [approve_transaction, only_signer, hs, hB, hP]
  exact ⟨h1, h2, by simp [step, h2]⟩

/-- Witness for C7: after initialize(0, [1,2], 1), a proposal by 1 and
an approval by 2 (which executes transaction 1), signer 1 approving the
unknown id 99 hits TransactionNotFound and approving the executed
transaction 1 hits TransactionNotPending with no state change. -/
theorem C7_approve_failure_modes_witness :
    approve_transaction (exec emptyState [Op.init 0 [1, 2] 1, Op.propose 1 9 100 [] 0,
      Op.approve 2 1]) 1 99 = Except.error Err.TransactionNotFound ∧
    approve_transaction (exec emptyState [Op.init 0 [1, 2] 1, Op.propose 1 9 100 [] 0,
      Op.approve 2 1]) 1 1 = Except.error Err.TransactionNotPending ∧
    step (exec emptyState [Op.init 0 [1, 2] 1, Op.propose 1 9 100 [] 0,
      Op.approve 2 1]) (Op.approve 1 1) =
      exec emptyState [Op.init 0 [1, 2] 1, Op.propose 1 9 100 [] 0, Op.approve 2 1] :=
  C7_approve_failure_modes
    (exec emptyState [Op.init 0 [1, 2] 1, Op.propose 1 9 100 [] 0, Op.approve 2 1])
    1 99 1
    { id := 1, to_addr := 9, amount := 100, data := [],
      status := TransactionStatus.Executed, proposed_by := 1, created_at := 0 }
    (by decide) (by decide) (by decide) (by decide)

/-- C6: after a successful `initialize` the NextId counter is 1; a
successful `propose_transaction` returns the current counter value and
bumps it by one; and across any sequence of further public operations
the counter never decreases, so ids returned by successive proposals
are strictly increasing and never reused. -/
theorem C6_monotonic_ids (s0 s1 s2 s3 s4 s5 : State) (adm : Address)
    (sgs : List Address) (t : Nat) (opsA opsB : List Op)
    (c1 c2 ta1 ta2 : Address) (am1 am2 : Int) (d1 d2 : List Nat)
    (n1 n2 id1 id2 : Nat)
    (hinit : init_contract s0 adm sgs t = Except.ok s1)
    (hA : exec s1 opsA = s2)
    (hp1 : propose_transaction s2 c1 ta1 am1 d1 n1 = Except.ok (id1, s3))
    (hB : exec s3 opsB = s4)
    (hp2 : propose_transaction s4 c2 ta2 am2 d2 n2 = Except.ok (id2, s5)) :
    s1.nextId = some 1 ∧ s2.nextId = some id1 ∧ s3.nextId = some (id1 + 1) ∧
    id1 < id2 := by
  obtain ⟨ha1, hn1, -⟩ := init_ok_inv s0 s1 adm sgs t hinit
  have hs1 : s1.admin.isSome = true := by rw [ha1]; rfl
  have hA2 := exec_admin_nextId opsA s1 hs1
  rw [hA] at hA2
  obtain ⟨hp1a, hp1b, hp1c, -, -, -⟩ := propose_ok_inv s2 s3 c1 ta1 am1 d1 n1 id1 hp1
  have hs3 : s3.admin.isSome = true := by rw [hp1c, hA2.1, ha1]; rfl
  have hB2 := exec_admin_nextId opsB s3 hs3
  rw [hB] at hB2
  obtain ⟨hp2a, -, -, -, -, -⟩ := propose_ok_inv s4 s5 c2 ta2 am2 d2 n2 id2 hp2
  refine ⟨hn1, hp1a, hp1b, ?_⟩
  have k1 : s3.nextId.getD 0 = id1 + 1 := by rw [hp1b]; rfl
  have k2 : s4.nextId.getD 0 = id2 := by rw [hp2a]; rfl
  have k3 := hB2.2
  omega

/-- Witness for C6: initialize(0, [1], 1), then two back-to-back
proposals by signer 1 return ids 1 and 2. -/
theorem C6_monotonic_ids_witness :
    (exec emptyState [Op.init 0 [1] 1]).nextId = some 1 ∧
    (exec emptyState [Op.init 0 [1] 1]).nextId = some 1 ∧
    (exec emptyState [Op.init 0 [1] 1, Op.propose 1 9 100 [] 0]).nextId =
      some (1 + 1) ∧
    1 < 2 :=
  C6_monotonic_ids emptyState
    (exec emptyState [Op.init 0 [1] 1])
    (exec emptyState [Op.init 0 [1] 1])
    (exec emptyState [Op.init 0 [1] 1, Op.propose 1 9 100 [] 0])
    (exec emptyState [Op.init 0 [1] 1, Op.propose 1 9 100 [] 0])
    (exec emptyState [Op.init 0 [1] 1, Op.propose 1 9 100 [] 0, Op.propose 1 9 100 [] 5])
    0 [1] 1 [] [] 1 1 9 9 100 100 [] [] 0 5 1 2
    rfl rfl rfl rfl rfl

/-- C3 counterexample: with threshold 1, a freshly proposed transaction
already has one distinct approver (the proposer, auto-recorded), yet at
the end of `propose_transaction` its status is still Pending - the
claim says it would be Executed in that same call. -/
theorem C3_counterexample :
    (exec emptyState [Op.init 0 [1] 1, Op.propose 1 9 100 [] 0]).threshold = some 1 ∧
    get_approvals (exec emptyState [Op.init 0 [1] 1, Op.propose 1 9 100 [] 0]) 1 =
      [1] ∧
    (get_transaction (exec emptyState [Op.init 0 [1] 1, Op.propose 1 9 100 [] 0])
      1).map Transaction.status = some TransactionStatus.Pending := by
  decide

/-- C3 amended: only `approve_transaction` performs the quorum check: a
successful approval leaves the transaction Executed exactly when, after
recording the caller's approval, the approval count reaches the stored
threshold, and still Pending otherwise; `propose_transaction` records
the proposer's approval but always leaves the new transaction Pending,
even when that single approval already meets the threshold. -/
theorem C3_amended_quorum (st s1 s2 : State) (caller ta : Address) (am : Int)
    (d : List Nat) (n nid i t : Nat) (tx : Transaction)
    (hp : propose_transaction st caller ta am d n = Except.ok (nid, s1))
    (ha : approve_transaction st caller i = Except.ok s2)
    (htx : get_transaction st i = some tx)
    (hid : tx.id = i)
    (ht : st.threshold = some t) :
    (get_transaction s1 nid).map Transaction.status =
      some TransactionStatus.Pending ∧
    (get_transaction s2 i).map Transaction.status =
      some (if t ≤ (get_approvals (self_approve st caller i) i).length
            then TransactionStatus.Executed else TransactionStatus.Pending) ∧
    ((get_transaction s2 i).map Transaction.status =
        some TransactionStatus.Executed ↔
      t ≤ (get_approvals (self_approve st caller i) i).length) := by
  obtain ⟨-, -, -, -, -, h6⟩ := propose_ok_inv st s1 caller ta am d n nid hp
  obtain ⟨-, tx2, t2, htx2, hPend2, ht2, hs2⟩ := approve_ok_inv st s2 caller i ha
  rw [htx] at htx2
  injection htx2 with he
  subst he
  rw [ht] at ht2
  injection ht2 with hte
  subst hte
  subst hs2
  refine ⟨by rw [h6]; rfl, ?_, ?_⟩
  · by_cases hle : t ≤ (get_approvals (self_approve st caller i) i).length
    · rw [if_pos hle, if_pos hle]
      simp [get_transaction, self_execute, hid, lookupA_setAssoc_self]
    · rw [if_neg hle, if_neg hle]
      simp [get_transaction_self_approve, htx, hPend2]
  · by_cases hle : t ≤ (get_approvals (self_approve st caller i) i).length
    · rw [if_pos hle]
      simp [get_transaction, self_execute, hid, lookupA_setAssoc_self, hle]
    · rw [if_neg hle]
      simp [get_transaction_self_approve, htx, hPend2, hle]

/-- Witness for the amended C3: threshold 1; a second proposal ends
Pending, and an approval of the pending transaction 1 executes it as
its approval count (1) meets the threshold. -/
theorem C3_amended_quorum_witness :
    ((get_transaction (exec emptyState [Op.init 0 [1] 1, Op.propose 1 9 100 [] 0,
        Op.propose 1 9 100 [] 5]) 2).map Transaction.status =
      some TransactionStatus.Pending) ∧
    ((get_transaction (exec emptyState [Op.init 0 [1] 1, Op.propose 1 9 100 [] 0,
        Op.approve 1 1]) 1).map Transaction.status =
      some (if 1 ≤ (get_approvals (self_approve (exec emptyState [Op.init 0 [1] 1,
            Op.propose 1 9 100 [] 0]) 1 1) 1).length
            then TransactionStatus.Executed else TransactionStatus.Pending)) ∧
    ((get_transaction (exec emptyState [Op.init 0 [1] 1, Op.propose 1 9 100 [] 0,
        Op.approve 1 1]) 1).map Transaction.status =
        some TransactionStatus.Executed ↔
      1 ≤ (get_approvals (self_approve (exec emptyState [Op.init 0 [1] 1,
        Op.propose 1 9 100 [] 0]) 1 1) 1).length) :=
  C3_amended_quorum
    (exec emptyState [Op.init 0 [1] 1, Op.propose 1 9 100 [] 0])
    (exec emptyState [Op.init 0 [1] 1, Op.propose 1 9 100 [] 0,
      Op.propose 1 9 100 [] 5])
    (exec emptyState [Op.init 0 [1] 1, Op.propose 1 9 100 [] 0, Op.approve 1 1])
    1 9 100 [] 5 2 1 1
    { id := 1, to_addr := 9, amount := 100, data := [],
      status := TransactionStatus.Pending, proposed_by := 1, created_at := 0 }
    rfl rfl (by decide) rfl (by decide)

/-- C5: a second `approve_transaction` by the same caller on the same
transaction, run while the transaction is still Pending, succeeds and
returns exactly the state of the first call (in particular the same
approval list), and approval lists stay duplicate-free. -/
theorem C5_approve_idempotent (st s1 : State) (caller : Address) (i : Nat)
    (h1 : approve_transaction st caller i = Except.ok s1)
    (hp : (get_transaction s1 i).map Transaction.status =
      some TransactionStatus.Pending) :
    approve_transaction s1 caller i = Except.ok s1 ∧
    ((get_approvals st i).Nodup → (get_approvals s1 i).Nodup) := by
  obtain ⟨hcmem, tx, t, htx, hPend, hth, hs1⟩ := approve_ok_inv st s1 caller i h1
  have happ : get_approvals s1 i = get_approvals (self_approve st caller i) i := by
    rw [hs1]
    split
    · rw [get_approvals_self_execute]
    · rfl
  have hflag : s1.signerFlag = st.signerFlag := by
    rw [hs1]; split <;> simp
  have hthr : s1.threshold = some t := by
    rw [hs1]; split <;> simp [hth]
  have hmem2 : caller ∈ get_approvals s1 i := by
    rw [happ]; exact mem_get_approvals_self_approve st caller i
  have hnd : (get_approvals st i).Nodup → (get_approvals s1 i).Nodup := by
    intro hnd0
    rw [happ]
    exact nodup_get_approvals_self_approve st caller i hnd0
  obtain ⟨tx2, htx2, hst2⟩ := Option.map_eq_some'.mp hp
  have hcmem1 : caller ∈ s1.signerFlag := by rw [hflag]; exact hcmem
  have heval := approve_eval s1 caller i tx2 t hcmem1 htx2 hst2 hmem2 hthr
  refine ⟨?_, hnd⟩
  by_cases hle : t ≤ (get_approvals (self_approve st caller i) i).length
  · rw [if_pos hle] at hs1
    by_cases hidi : tx.id = i
    · exfalso
      have hbad : get_transaction s1 i =
          some { tx with status := TransactionStatus.Executed } := by
        rw [hs1]
        simp [get_transaction, self_execute, hidi, lookupA_setAssoc_self]
      rw [hbad] at htx2
      injection htx2 with he
      rw [← he] at hst2
      simp at hst2
    · have h5 : get_transaction s1 i = some tx := by
        rw [hs1]
        simp only [get_transaction, self_execute]
        rw [lookupA_setAssoc_ne i tx.id _ _ (fun hh => hidi hh.symm)]
        rw [self_approve_transactions]
        exact htx
      have htx2tx : tx2 = tx := by
        rw [h5] at htx2
        injection htx2 with he
        exact he.symm
      rw [heval, happ, if_pos hle, htx2tx]
      congr 1
      rw [hs1]
      simp [self_execute, setAssoc_setAssoc_self]
  · rw [if_neg hle] at hs1
    rw [heval, happ, if_neg hle]

/-- Witness for C5: after initialize(0, [1,2], 2) and a proposal by 1,
signer 1 approving transaction 1 again is a no-op success. -/
theorem C5_approve_idempotent_witness :
    approve_transaction (exec emptyState [Op.init 0 [1, 2] 2, Op.propose 1 9 100 [] 0])
        1 1 =
      Except.ok (exec emptyState [Op.init 0 [1, 2] 2, Op.propose 1 9 100 [] 0]) ∧
    ((get_approvals (exec emptyState [Op.init 0 [1, 2] 2, Op.propose 1 9 100 [] 0])
        1).Nodup →
      (get_approvals (exec emptyState [Op.init 0 [1, 2] 2, Op.propose 1 9 100 [] 0])
        1).Nodup) :=
  C5_approve_idempotent
    (exec emptyState [Op.init 0 [1, 2] 2, Op.propose 1 9 100 [] 0])
    (exec emptyState [Op.init 0 [1, 2] 2, Op.propose 1 9 100 [] 0])
    1 1 rfl (by decide)

end MultiSig
